import Mathlib

/-!
Shallow embedding of the Chronos parametric EQ (myaiplug/chronos).

Source files embedded:
* `src/include/Biquad.hpp`        — the `Biquad` second-order IIR section
* `src/include/FilterDesign.hpp`  — the cookbook coefficient designers
* `src/include/SpectralWeaver.hpp`— the 7-band engine

C++ `double` values are modelled as real numbers; buffers passed by pointer
are modelled either as Lean lists (when aliasing is irrelevant) or as a
memory function `ℕ → ℝ` with explicit base offsets (for the in-place
`processBlock` analysis).  `int` band indices are modelled as `ℤ` so that
negative indices are representable.
-/

namespace Chronos

/-- Embeds the `Biquad` class of `src/include/Biquad.hpp`: five stored
coefficients (`m_b0 … m_a2`) and the two Direct Form II Transposed delay
registers (`m_z1`, `m_z2`). -/
structure Biquad where
  b0 : ℝ
  b1 : ℝ
  b2 : ℝ
  a1 : ℝ
  a2 : ℝ
  z1 : ℝ
  z2 : ℝ

/-- The coefficient part of a `Biquad` (the five normalized coefficients). -/
structure BiquadCoefficients where
  b0 : ℝ
  b1 : ℝ
  b2 : ℝ
  a1 : ℝ
  a2 : ℝ

/-- `Biquad::setCoefficients`: stores the five coefficients verbatim and
leaves the delay registers untouched. -/
def Biquad.setCoefficients (f : Biquad) (b0 b1 b2 a1 a2 : ℝ) : Biquad :=
  { f with b0 := b0, b1 := b1, b2 := b2, a1 := a1, a2 := a2 }

/-- The coefficients currently stored in a `Biquad`. -/
def Biquad.coeffs (f : Biquad) : BiquadCoefficients :=
  ⟨f.b0, f.b1, f.b2, f.a1, f.a2⟩

/-- `Biquad::reset`: zeroes both delay registers. -/
def Biquad.reset (f : Biquad) : Biquad :=
  { f with z1 := 0, z2 := 0 }

/-- The default-constructed `Biquad`: `reset()` then
`setCoefficients(1.0, 0.0, 0.0, 0.0, 0.0)`. -/
def Biquad.initB : Biquad :=
  ⟨1, 0, 0, 0, 0, 0, 0⟩

/-- `Biquad::process`: the Direct Form II Transposed update.  Returns the
output sample together with the post-call filter (C++ mutates in place). -/
noncomputable def Biquad.process (f : Biquad) (x : ℝ) : ℝ × Biquad :=
  let output := f.b0 * x + f.z1
  let z1' := f.b1 * x - f.a1 * output + f.z2
  let z2' := f.b2 * x - f.a2 * output
  (output, { f with z1 := z1', z2 := z2' })

/-- Sample-by-sample processing of a list of inputs: the functional content
of `Biquad::processBlock` once buffer aliasing has been discharged (see
`Biquad.runBlock` and `runBlock_spec` below). -/
noncomputable def Biquad.processList (f : Biquad) : List ℝ → List ℝ × Biquad
  | [] => ([], f)
  | x :: xs =>
    let p := f.process x
    let q := p.2.processList xs
    (p.1 :: q.1, q.2)

/-- Read `n` consecutive cells of a memory starting at `base`. -/
def regionGet (mem : ℕ → ℝ) : ℕ → ℕ → List ℝ
  | _, 0 => []
  | base, n + 1 => mem base :: regionGet mem (base + 1) n

/-- `Biquad::processBlock(input, output, numSamples)` over an explicit
memory: the loop `for i: output[i] = process(input[i])`, with `src` and
`dst` the base offsets of the two pointer arguments (equal bases model the
in-place call). -/
noncomputable def Biquad.runBlock : Biquad → (ℕ → ℝ) → ℕ → ℕ → ℕ → (ℕ → ℝ) × Biquad
  | f, mem, _, _, 0 => (mem, f)
  | f, mem, src, dst, n + 1 =>
    let p := f.process (mem src)
    Biquad.runBlock p.2 (Function.update mem dst p.1) (src + 1) (dst + 1) n

/-! ### FilterDesign (`src/include/FilterDesign.hpp`) -/

/-- The `FilterType` enumeration. -/
inductive FilterType
  | Bell
  | LowShelf
  | HighShelf
  | LowPass
  | HighPass
  | AllPass
  | Notch
deriving DecidableEq, Repr

/-- `std::clamp(v, lo, hi)` as specified by the C++ standard library:
`lo` if `v < lo`, else `hi` if `hi < v`, else `v`. -/
noncomputable def stdClamp (v lo hi : ℝ) : ℝ :=
  if v < lo then lo else if hi < v then hi else v

namespace FilterDesign

/-- `FilterDesign::MIN_Q`. -/
def MIN_Q : ℝ := 0.1

/-- `FilterDesign::MAX_Q`. -/
def MAX_Q : ℝ := 18.0

/-- The clamp `Q = std::clamp(Q, MIN_Q, MAX_Q)` shared by all seven design
functions. -/
noncomputable def clampQ (Q : ℝ) : ℝ := stdClamp Q MIN_Q MAX_Q

/-- The clamp `frequency = std::clamp(frequency, 1.0, sampleRate * 0.49)`
shared by all seven design functions. -/
noncomputable def clampFreq (sampleRate frequency : ℝ) : ℝ :=
  stdClamp frequency 1 (sampleRate * 0.49)

/-- The bilinear-transform angular frequency `omega = 2.0 * PI * frequency /
sampleRate` (applied to the already-clamped frequency). -/
noncomputable def angularFreq (sampleRate frequency : ℝ) : ℝ :=
  2.0 * Real.pi * frequency / sampleRate

/-- Coefficients of `FilterDesign::designBell`. -/
noncomputable def bellCoeffs (sampleRate frequency Q gainDB : ℝ) : BiquadCoefficients :=
  let Qc := clampQ Q
  let fc := clampFreq sampleRate frequency
  let A := (10.0 : ℝ) ^ (gainDB / 40.0)
  let omega := angularFreq sampleRate fc
  let sn := Real.sin omega
  let cs := Real.cos omega
  let alpha := sn / (2.0 * Qc)
  let b0 := 1.0 + alpha * A
  let b1 := -2.0 * cs
  let b2 := 1.0 - alpha * A
  let a0 := 1.0 + alpha / A
  let a1 := -2.0 * cs
  let a2 := 1.0 - alpha / A
  ⟨b0 / a0, b1 / a0, b2 / a0, a1 / a0, a2 / a0⟩

/-- Coefficients of `FilterDesign::designLowShelf`. -/
noncomputable def lowShelfCoeffs (sampleRate frequency Q gainDB : ℝ) : BiquadCoefficients :=
  let Qc := clampQ Q
  let fc := clampFreq sampleRate frequency
  let A := (10.0 : ℝ) ^ (gainDB / 40.0)
  let omega := angularFreq sampleRate fc
  let sn := Real.sin omega
  let cs := Real.cos omega
  let beta := Real.sqrt A / Qc
  let b0 := A * ((A + 1.0) - (A - 1.0) * cs + beta * sn)
  let b1 := 2.0 * A * ((A - 1.0) - (A + 1.0) * cs)
  let b2 := A * ((A + 1.0) - (A - 1.0) * cs - beta * sn)
  let a0 := (A + 1.0) + (A - 1.0) * cs + beta * sn
  let a1 := -2.0 * ((A - 1.0) + (A + 1.0) * cs)
  let a2 := (A + 1.0) + (A - 1.0) * cs - beta * sn
  ⟨b0 / a0, b1 / a0, b2 / a0, a1 / a0, a2 / a0⟩

/-- Coefficients of `FilterDesign::designHighShelf`. -/
noncomputable def highShelfCoeffs (sampleRate frequency Q gainDB : ℝ) : BiquadCoefficients :=
  let Qc := clampQ Q
  let fc := clampFreq sampleRate frequency
  let A := (10.0 : ℝ) ^ (gainDB / 40.0)
  let omega := angularFreq sampleRate fc
  let sn := Real.sin omega
  let cs := Real.cos omega
  let beta := Real.sqrt A / Qc
  let b0 := A * ((A + 1.0) + (A - 1.0) * cs + beta * sn)
  let b1 := -2.0 * A * ((A - 1.0) + (A + 1.0) * cs)
  let b2 := A * ((A + 1.0) + (A - 1.0) * cs - beta * sn)
  let a0 := (A + 1.0) - (A - 1.0) * cs + beta * sn
  let a1 := 2.0 * ((A - 1.0) - (A + 1.0) * cs)
  let a2 := (A + 1.0) - (A - 1.0) * cs - beta * sn
  ⟨b0 / a0, b1 / a0, b2 / a0, a1 / a0, a2 / a0⟩

/-- Coefficients of `FilterDesign::designHighPass` (no gain parameter). -/
noncomputable def highPassCoeffs (sampleRate frequency Q : ℝ) : BiquadCoefficients :=
  let Qc := clampQ Q
  let fc := clampFreq sampleRate frequency
  let omega := angularFreq sampleRate fc
  let sn := Real.sin omega
  let cs := Real.cos omega
  let alpha := sn / (2.0 * Qc)
  let b0 := (1.0 + cs) / 2.0
  let b1 := -(1.0 + cs)
  let b2 := (1.0 + cs) / 2.0
  let a0 := 1.0 + alpha
  let a1 := -2.0 * cs
  let a2 := 1.0 - alpha
  ⟨b0 / a0, b1 / a0, b2 / a0, a1 / a0, a2 / a0⟩

/-- Coefficients of `FilterDesign::designLowPass` (no gain parameter). -/
noncomputable def lowPassCoeffs (sampleRate frequency Q : ℝ) : BiquadCoefficients :=
  let Qc := clampQ Q
  let fc := clampFreq sampleRate frequency
  let omega := angularFreq sampleRate fc
  let sn := Real.sin omega
  let cs := Real.cos omega
  let alpha := sn / (2.0 * Qc)
  let b0 := (1.0 - cs) / 2.0
  let b1 := 1.0 - cs
  let b2 := (1.0 - cs) / 2.0
  let a0 := 1.0 + alpha
  let a1 := -2.0 * cs
  let a2 := 1.0 - alpha
  ⟨b0 / a0, b1 / a0, b2 / a0, a1 / a0, a2 / a0⟩

/-- Coefficients of `FilterDesign::designAllPass` (no gain parameter). -/
noncomputable def allPassCoeffs (sampleRate frequency Q : ℝ) : BiquadCoefficients :=
  let Qc := clampQ Q
  let fc := clampFreq sampleRate frequency
  let omega := angularFreq sampleRate fc
  let sn := Real.sin omega
  let cs := Real.cos omega
  let alpha := sn / (2.0 * Qc)
  let b0 := 1.0 - alpha
  let b1 := -2.0 * cs
  let b2 := 1.0 + alpha
  let a0 := 1.0 + alpha
  let a1 := -2.0 * cs
  let a2 := 1.0 - alpha
  ⟨b0 / a0, b1 / a0, b2 / a0, a1 / a0, a2 / a0⟩

/-- Coefficients of `FilterDesign::designNotch` (no gain parameter). -/
noncomputable def notchCoeffs (sampleRate frequency Q : ℝ) : BiquadCoefficients :=
  let Qc := clampQ Q
  let fc := clampFreq sampleRate frequency
  let omega := angularFreq sampleRate fc
  let sn := Real.sin omega
  let cs := Real.cos omega
  let alpha := sn / (2.0 * Qc)
  let b0 := 1.0
  let b1 := -2.0 * cs
  let b2 := 1.0
  let a0 := 1.0 + alpha
  let a1 := -2.0 * cs
  let a2 := 1.0 - alpha
  ⟨b0 / a0, b1 / a0, b2 / a0, a1 / a0, a2 / a0⟩

end FilterDesign

/-- Write a designed coefficient set into a biquad, as every
`FilterDesign::designX` function does via `biquad.setCoefficients`. -/
def Biquad.applyCoeffs (f : Biquad) (c : BiquadCoefficients) : Biquad :=
  f.setCoefficients c.b0 c.b1 c.b2 c.a1 c.a2

/-- The coefficient set the `switch` in `SpectralWeaver::updateFilter`
derives for a given filter type and parameters; the four gain-free designs
are called without the band's `gainDB`. -/
noncomputable def designCoeffs (t : FilterType) (sampleRate frequency Q gainDB : ℝ) :
    BiquadCoefficients :=
  match t with
  | .Bell => FilterDesign.bellCoeffs sampleRate frequency Q gainDB
  | .LowShelf => FilterDesign.lowShelfCoeffs sampleRate frequency Q gainDB
  | .HighShelf => FilterDesign.highShelfCoeffs sampleRate frequency Q gainDB
  | .HighPass => FilterDesign.highPassCoeffs sampleRate frequency Q
  | .LowPass => FilterDesign.lowPassCoeffs sampleRate frequency Q
  | .AllPass => FilterDesign.allPassCoeffs sampleRate frequency Q
  | .Notch => FilterDesign.notchCoeffs sampleRate frequency Q

/-! ### SpectralWeaver (`src/include/SpectralWeaver.hpp`) -/

/-- The `EQBand` descriptor. -/
structure EQBand where
  type : FilterType
  frequency : ℝ
  Q : ℝ
  gainDB : ℝ
  enabled : Bool

/-- The default-constructed `EQBand`: Bell, 1000 Hz, Q 0.707, 0 dB,
disabled. -/
def EQBand.defaultBand : EQBand :=
  ⟨FilterType.Bell, 1000.0, 0.707, 0.0, false⟩

/-- `SpectralWeaver::NUM_BANDS`. -/
def NUM_BANDS : ℕ := 7

/-- The `SpectralWeaver` engine state: the two parallel `std::array`s of
band descriptors and biquad filters (modelled as lists, length `NUM_BANDS`
in every reachable state), the sample rate and the bypass flag. -/
structure SpectralWeaver where
  bands : List EQBand
  filters : List Biquad
  sampleRate : ℝ
  bypass : Bool

namespace SpectralWeaver

/-- `SpectralWeaver::updateFilter(bandIndex)`: guard the index, then derive
the band's coefficients with the designer selected by its type and write
them into that band's filter (delay state untouched). -/
noncomputable def updateFilter (e : SpectralWeaver) (bandIndex : ℤ) : SpectralWeaver :=
  if bandIndex < 0 ∨ (NUM_BANDS : ℤ) ≤ bandIndex then e
  else
    let i := bandIndex.toNat
    let band := e.bands.getD i EQBand.defaultBand
    let filter := e.filters.getD i Biquad.initB
    let designed :=
      filter.applyCoeffs (designCoeffs band.type e.sampleRate band.frequency band.Q band.gainDB)
    { e with filters := e.filters.set i designed }

/-- `SpectralWeaver::updateAllFilters`: `updateFilter(i)` for `i = 0..6`. -/
noncomputable def updateAllFilters (e : SpectralWeaver) : SpectralWeaver :=
  (List.range NUM_BANDS).foldl (fun a (i : ℕ) => a.updateFilter (i : ℤ)) e

/-- The seven default band descriptors written by
`SpectralWeaver::initializeDefaultBands`. -/
def defaultBands : List EQBand :=
  [⟨FilterType.HighPass, 30.0, 0.707, 0.0, false⟩,
   ⟨FilterType.LowShelf, 100.0, 0.707, 0.0, false⟩,
   ⟨FilterType.Bell, 250.0, 0.707, 0.0, false⟩,
   ⟨FilterType.Bell, 1000.0, 0.707, 0.0, false⟩,
   ⟨FilterType.Bell, 3000.0, 0.707, 0.0, false⟩,
   ⟨FilterType.HighShelf, 8000.0, 0.707, 0.0, false⟩,
   ⟨FilterType.LowPass, 18000.0, 0.707, 0.0, false⟩]

/-- The freshly constructed `SpectralWeaver`: sample rate 44100, bypass off,
default bands, then `updateAllFilters` (via `initializeDefaultBands`). -/
noncomputable def init : SpectralWeaver :=
  updateAllFilters
    { bands := defaultBands
      filters := List.replicate NUM_BANDS Biquad.initB
      sampleRate := 44100.0
      bypass := false }

/-- The engine operation that sets the sample rate unconditionally and
recomputes every band's coefficients (named after the sample-rate argument
because its C++ name is a Lean keyword). -/
noncomputable def initWithRate (e : SpectralWeaver) (sampleRate : ℝ) : SpectralWeaver :=
  updateAllFilters { e with sampleRate := sampleRate }

/-- `SpectralWeaver::setSampleRate(sampleRate)`: recompute all filters iff
the rate actually changes. -/
noncomputable def setSampleRate (e : SpectralWeaver) (sampleRate : ℝ) : SpectralWeaver :=
  if e.sampleRate = sampleRate then e
  else updateAllFilters { e with sampleRate := sampleRate }

/-- `SpectralWeaver::setBand(bandIndex, type, frequency, Q, gainDB)`:
out-of-range index is a no-op; otherwise update the descriptor's four
design parameters (the `enabled` flag is untouched) and recompute that
band's coefficients. -/
noncomputable def setBand (e : SpectralWeaver) (bandIndex : ℤ) (type : FilterType)
    (frequency Q gainDB : ℝ) : SpectralWeaver :=
  if bandIndex < 0 ∨ (NUM_BANDS : ℤ) ≤ bandIndex then e
  else
    let i := bandIndex.toNat
    let old := e.bands.getD i EQBand.defaultBand
    let newBand := { old with type := type, frequency := frequency, Q := Q, gainDB := gainDB }
    let e' := { e with bands := e.bands.set i newBand }
    e'.updateFilter bandIndex

/-- `SpectralWeaver::setBandEnabled(bandIndex, enabled)`: no coefficient
recompute. -/
def setBandEnabled (e : SpectralWeaver) (bandIndex : ℤ) (enabled : Bool) : SpectralWeaver :=
  if bandIndex < 0 ∨ (NUM_BANDS : ℤ) ≤ bandIndex then e
  else
    let i := bandIndex.toNat
    let old := e.bands.getD i EQBand.defaultBand
    { e with bands := e.bands.set i { old with enabled := enabled } }

/-- `SpectralWeaver::getBand(bandIndex)`: invalid index returns the
default-constructed `dummy` descriptor. -/
def getBand (e : SpectralWeaver) (bandIndex : ℤ) : EQBand :=
  if bandIndex < 0 ∨ (NUM_BANDS : ℤ) ≤ bandIndex then EQBand.defaultBand
  else e.bands.getD bandIndex.toNat EQBand.defaultBand

/-- `SpectralWeaver::setBandFrequency(bandIndex, frequency)`. -/
noncomputable def setBandFrequency (e : SpectralWeaver) (bandIndex : ℤ)
    (frequency : ℝ) : SpectralWeaver :=
  if bandIndex < 0 ∨ (NUM_BANDS : ℤ) ≤ bandIndex then e
  else
    let i := bandIndex.toNat
    let old := e.bands.getD i EQBand.defaultBand
    let e' := { e with bands := e.bands.set i { old with frequency := frequency } }
    e'.updateFilter bandIndex

/-- `SpectralWeaver::setBandQ(bandIndex, Q)`. -/
noncomputable def setBandQ (e : SpectralWeaver) (bandIndex : ℤ) (Q : ℝ) : SpectralWeaver :=
  if bandIndex < 0 ∨ (NUM_BANDS : ℤ) ≤ bandIndex then e
  else
    let i := bandIndex.toNat
    let old := e.bands.getD i EQBand.defaultBand
    let e' := { e with bands := e.bands.set i { old with Q := Q } }
    e'.updateFilter bandIndex

/-- `SpectralWeaver::setBandGain(bandIndex, gainDB)`. -/
noncomputable def setBandGain (e : SpectralWeaver) (bandIndex : ℤ)
    (gainDB : ℝ) : SpectralWeaver :=
  if bandIndex < 0 ∨ (NUM_BANDS : ℤ) ≤ bandIndex then e
  else
    let i := bandIndex.toNat
    let old := e.bands.getD i EQBand.defaultBand
    let e' := { e with bands := e.bands.set i { old with gainDB := gainDB } }
    e'.updateFilter bandIndex

/-- `SpectralWeaver::setBandType(bandIndex, type)`. -/
noncomputable def setBandType (e : SpectralWeaver) (bandIndex : ℤ)
    (type : FilterType) : SpectralWeaver :=
  if bandIndex < 0 ∨ (NUM_BANDS : ℤ) ≤ bandIndex then e
  else
    let i := bandIndex.toNat
    let old := e.bands.getD i EQBand.defaultBand
    let e' := { e with bands := e.bands.set i { old with type := type } }
    e'.updateFilter bandIndex

/-- `SpectralWeaver::setBypass(bypass)`. -/
def setBypass (e : SpectralWeaver) (bypass : Bool) : SpectralWeaver :=
  { e with bypass := bypass }

/-- `SpectralWeaver::reset`: reset every filter. -/
def reset (e : SpectralWeaver) : SpectralWeaver :=
  { e with filters := e.filters.map Biquad.reset }

end SpectralWeaver

/-- The per-sample cascade loop of `SpectralWeaver::processSample`: fold one
sample through the parallel band/filter lists in ascending index order,
processing through (and updating) exactly the enabled bands' filters. -/
noncomputable def cascadeSample : List EQBand → List Biquad → ℝ → ℝ × List Biquad
  | b :: bs, f :: fl, x =>
    if b.enabled then
      let p := f.process x
      let r := cascadeSample bs fl p.1
      (r.1, p.2 :: r.2)
    else
      let r := cascadeSample bs fl x
      (r.1, f :: r.2)
  | _, fl, x => (x, fl)

/-- The per-band block loop of `SpectralWeaver::processBlock` (after the
initial copy of input to output): each enabled band processes the whole
block in place, in ascending band order.  The in-place
`Biquad::processBlock(output, output, n)` call is modelled by
`Biquad.processList`, which `runBlock_spec` shows is exactly what the
aliased call computes. -/
noncomputable def cascadeBlock : List EQBand → List Biquad → List ℝ → List ℝ × List Biquad
  | b :: bs, f :: fl, xs =>
    if b.enabled then
      let p := f.processList xs
      let r := cascadeBlock bs fl p.1
      (r.1, p.2 :: r.2)
    else
      let r := cascadeBlock bs fl xs
      (r.1, f :: r.2)
  | _, fl, xs => (xs, fl)

namespace SpectralWeaver

/-- `SpectralWeaver::processSample(input)`: bypass returns the input
unchanged (and touches no state); otherwise cascade through the enabled
bands. -/
noncomputable def processSample (e : SpectralWeaver) (input : ℝ) : ℝ × SpectralWeaver :=
  if e.bypass then (input, e)
  else
    let r := cascadeSample e.bands e.filters input
    (r.1, { e with filters := r.2 })

/-- `SpectralWeaver::processBlock(input, output, numSamples)`: bypass copies
the input verbatim; otherwise copy the input to the output and run each
enabled band's block transform over it in band order. -/
noncomputable def processBlock (e : SpectralWeaver) (input : List ℝ) :
    List ℝ × SpectralWeaver :=
  if e.bypass then (input, e)
  else
    let r := cascadeBlock e.bands e.filters input
    (r.1, { e with filters := r.2 })

/-- Calling `processSample` on each input sample in order, threading the
engine state (the reference implementation C3 compares `processBlock`
against). -/
noncomputable def processSampleList (e : SpectralWeaver) :
    List ℝ → List ℝ × SpectralWeaver
  | [] => ([], e)
  | x :: xs =>
    let p := e.processSample x
    let q := p.2.processSampleList xs
    (p.1 :: q.1, q.2)

end SpectralWeaver

/-- The coefficient set the design layer derives from a band descriptor's
current parameters and a sample rate. -/
noncomputable def bandCoeffs (b : EQBand) (sampleRate : ℝ) : BiquadCoefficients :=
  designCoeffs b.type sampleRate b.frequency b.Q b.gainDB

/-- Band `i`'s stored biquad coefficients agree with the coefficients the
design functions derive from its current descriptor and the current sample
rate. -/
noncomputable def ConsistAt (e : SpectralWeaver) (i : ℕ) : Prop :=
  (e.filters.getD i Biquad.initB).coeffs
    = bandCoeffs (e.bands.getD i EQBand.defaultBand) e.sampleRate

/-- The engine-wide coefficient-consistency invariant (§3 of the spec),
together with the fixed sizes of the two parallel `std::array`s. -/
noncomputable def Consistent (e : SpectralWeaver) : Prop :=
  e.bands.length = NUM_BANDS ∧ e.filters.length = NUM_BANDS ∧
  ∀ i, i < NUM_BANDS → ConsistAt e i

lemma regionGet_update_ne (mem : ℕ → ℝ) (d : ℕ) (y : ℝ) :
    ∀ n base, (∀ k, k < n → d ≠ base + k) →
      regionGet (Function.update mem d y) base n = regionGet mem base n := by
  intro n
  induction n with
  | zero => intro base _; rfl
  | succ m ih =>
    intro base h
    have hd : d ≠ base := by
      have := h 0 (Nat.succ_pos m)
      simpa using this
    have : Function.update mem d y base = mem base :=
      Function.update_noteq (fun hb => hd hb.symm) y mem
    simp only [regionGet, this]
    rw [ih (base + 1)]
    intro k hk
    have := h (k + 1) (by omega)
    omega

/-- The loop of `Biquad::processBlock` computes `processList` of the source
region, writes its outputs to the destination region, and touches no other
cell — provided no write lands on a cell that a *later* iteration still has
to read.  This hypothesis holds both for disjoint buffers and for the
in-place call (where iteration `i` writes the very cell it just read). -/
lemma runBlock_spec :
    ∀ (n : ℕ) (f : Biquad) (mem : ℕ → ℝ) (src dst : ℕ),
      (∀ i j, i < j → j < n → dst + i ≠ src + j) →
      (Biquad.runBlock f mem src dst n).2 = (f.processList (regionGet mem src n)).2 ∧
      regionGet (Biquad.runBlock f mem src dst n).1 dst n
        = (f.processList (regionGet mem src n)).1 ∧
      (∀ k, (∀ i, i < n → k ≠ dst + i) → (Biquad.runBlock f mem src dst n).1 k = mem k) := by
  intro n
  induction n with
  | zero =>
    intro f mem src dst _
    exact ⟨rfl, rfl, fun k _ => rfl⟩
  | succ m ih =>
    intro f mem src dst h
    set p := f.process (mem src) with hp
    set mem1 := Function.update mem dst p.1 with hm1
    have hreg : regionGet mem1 (src + 1) m = regionGet mem (src + 1) m := by
      apply regionGet_update_ne
      intro k hk
      have := h 0 (k + 1) (by omega) (by omega)
      omega
    have hcond : ∀ i j, i < j → j < m → (dst + 1) + i ≠ (src + 1) + j := by
      intro i j hij hjm
      have := h (i + 1) (j + 1) (by omega) (by omega)
      omega
    obtain ⟨ih1, ih2, ih3⟩ := ih p.2 mem1 (src + 1) (dst + 1) hcond
    have hrun : Biquad.runBlock f mem src dst (m + 1)
        = Biquad.runBlock p.2 mem1 (src + 1) (dst + 1) m := rfl
    have hlist : f.processList (regionGet mem src (m + 1))
        = (p.1 :: (p.2.processList (regionGet mem (src + 1) m)).1,
           (p.2.processList (regionGet mem (src + 1) m)).2) := rfl
    refine ⟨?_, ?_, ?_⟩
    · rw [hrun, hlist, ih1, hreg]
    · rw [hrun, hlist]
      have hhd : (Biquad.runBlock p.2 mem1 (src + 1) (dst + 1) m).1 dst = p.1 := by
        have := ih3 dst (by intro i _; omega)
        rw [this, hm1]
        exact Function.update_same dst p.1 mem
      simp only [regionGet, hhd]
      rw [ih2, hreg]
    · intro k hk
      rw [hrun]
      have hk' : ∀ i, i < m → k ≠ (dst + 1) + i := by
        intro i hi
        have := hk (i + 1) (by omega)
        omega
      rw [ih3 k hk', hm1]
      have hkd : k ≠ dst := by
        have := hk 0 (by omega)
        omega
      exact Function.update_noteq hkd p.1 mem

/-- Disjointness or aliasing of the two buffer regions implies the no-clobber
condition used by `runBlock_spec`. -/
lemma runBlock_cond_of_disjoint_or_alias {src dst n : ℕ}
    (h : src + n ≤ dst ∨ dst + n ≤ src ∨ src = dst) :
    ∀ i j, i < j → j < n → dst + i ≠ src + j := by
  intro i j hij hjn
  rcases h with h | h | h <;> omega

/-- C1: `Biquad::process(x)` returns `y = b0*x + z1`, updates the delay
state to `z1' = b1*x - a1*y + z2` and `z2' = b2*x - a2*y` (Direct Form II
Transposed), and changes nothing else: all five stored coefficients are
preserved. -/
theorem biquad_process_dfiit (f : Biquad) (x : ℝ) :
    (f.process x).1 = f.b0 * x + f.z1 ∧
    (f.process x).2.z1 = f.b1 * x - f.a1 * (f.b0 * x + f.z1) + f.z2 ∧
    (f.process x).2.z2 = f.b2 * x - f.a2 * (f.b0 * x + f.z1) ∧
    (f.process x).2.b0 = f.b0 ∧
    (f.process x).2.b1 = f.b1 ∧
    (f.process x).2.b2 = f.b2 ∧
    (f.process x).2.a1 = f.a1 ∧
    (f.process x).2.a2 = f.a2 :=
  ⟨rfl, rfl, rfl, rfl, rfl, rfl, rfl, rfl⟩

/-- C9: `Biquad::processBlock` called with the same buffer for input and
output (base offset `base` in memory `mem2`) produces exactly the same
output sequence and final delay state as calling it with distinct
(disjoint) input and output buffers holding the same samples `xs`. -/
theorem biquad_processBlock_in_place (f : Biquad) (xs : List ℝ)
    (mem mem2 : ℕ → ℝ) (src dst base : ℕ)
    (h1 : regionGet mem src xs.length = xs)
    (hdisj : src + xs.length ≤ dst ∨ dst + xs.length ≤ src)
    (h2 : regionGet mem2 base xs.length = xs) :
    regionGet (Biquad.runBlock f mem src dst xs.length).1 dst xs.length
      = regionGet (Biquad.runBlock f mem2 base base xs.length).1 base xs.length ∧
    (Biquad.runBlock f mem src dst xs.length).2
      = (Biquad.runBlock f mem2 base base xs.length).2 := by
  obtain ⟨d1, d2, _⟩ := runBlock_spec xs.length f mem src dst
    (runBlock_cond_of_disjoint_or_alias (by tauto))
  obtain ⟨a1, a2, _⟩ := runBlock_spec xs.length f mem2 base base
    (runBlock_cond_of_disjoint_or_alias (Or.inr (Or.inr rfl)))
  rw [h1] at d1 d2
  rw [h2] at a1 a2
  exact ⟨d2.trans a2.symm, d1.trans a1.symm⟩

/-- Witness for C9 at a concrete input: two samples `[1, 2]`, a disjoint
pair of buffers at offsets 0 and 5, and an aliased buffer at offset 0. -/
theorem biquad_processBlock_in_place_witness :
    (regionGet (fun i => if i = 0 then 1 else if i = 1 then 2 else 0) 0
        (List.length [(1 : ℝ), 2]) = [(1 : ℝ), 2]) ∧
    (regionGet (Biquad.runBlock Biquad.initB
        (fun i => if i = 0 then 1 else if i = 1 then 2 else 0) 0 5
        (List.length [(1 : ℝ), 2])).1 5 (List.length [(1 : ℝ), 2])
      = regionGet (Biquad.runBlock Biquad.initB
        (fun i => if i = 0 then 1 else if i = 1 then 2 else 0) 0 0
        (List.length [(1 : ℝ), 2])).1 0 (List.length [(1 : ℝ), 2]) ∧
     (Biquad.runBlock Biquad.initB
        (fun i => if i = 0 then 1 else if i = 1 then 2 else 0) 0 5
        (List.length [(1 : ℝ), 2])).2
      = (Biquad.runBlock Biquad.initB
        (fun i => if i = 0 then 1 else if i = 1 then 2 else 0) 0 0
        (List.length [(1 : ℝ), 2])).2) :=
  ⟨rfl, biquad_processBlock_in_place Biquad.initB [(1 : ℝ), 2]
    (fun i => if i = 0 then 1 else if i = 1 then 2 else 0)
    (fun i => if i = 0 then 1 else if i = 1 then 2 else 0) 0 5 0
    rfl (Or.inl (by decide)) rfl⟩

/-! ### List indexing helpers -/

lemma getD_set_self {α : Type} (l : List α) (n : ℕ) (a d : α) (h : n < l.length) :
    (l.set n a).getD n d = a := by
  induction l generalizing n with
  | nil => simp at h
  | cons x xs ih =>
    cases n with
    | zero => rfl
    | succ m => exact ih m (by simpa using h)

lemma getD_set_ne {α : Type} (l : List α) (m n : ℕ) (a d : α) (h : m ≠ n) :
    (l.set m a).getD n d = l.getD n d := by
  induction l generalizing m n with
  | nil => rfl
  | cons x xs ih =>
    cases m with
    | zero =>
      cases n with
      | zero => exact absurd rfl h
      | succ k => rfl
    | succ m' =>
      cases n with
      | zero => rfl
      | succ k => exact ih m' k (by omega)

lemma getD_map_reset (l : List Biquad) (i : ℕ) :
    (l.map Biquad.reset).getD i Biquad.initB = Biquad.reset (l.getD i Biquad.initB) := by
  induction l generalizing i with
  | nil =>
    cases i <;> rfl
  | cons x xs ih =>
    cases i with
    | zero => rfl
    | succ m => exact ih m

/-! ### C4: bypass is a verbatim, state-frozen pass-through -/

/-- C4: with the bypass flag set, `processSample` returns its input
unchanged and `processBlock` copies its input verbatim, and neither call
changes the engine at all (in particular every band's delay state is
frozen, so clearing bypass later resumes from the state that existed when
bypass was engaged). -/
theorem bypass_identity (e : SpectralWeaver) (x : ℝ) (xs : List ℝ)
    (h : e.bypass = true) :
    e.processSample x = (x, e) ∧ e.processBlock xs = (xs, e) := by
  constructor
  · unfold SpectralWeaver.processSample
    rw [if_pos h]
  · unfold SpectralWeaver.processBlock
    rw [if_pos h]

/-- Witness for C4 at a concrete bypassed engine. -/
theorem bypass_identity_witness :
    (SpectralWeaver.mk SpectralWeaver.defaultBands
        (List.replicate NUM_BANDS Biquad.initB) 44100.0 true).processSample 3
      = (3, SpectralWeaver.mk SpectralWeaver.defaultBands
        (List.replicate NUM_BANDS Biquad.initB) 44100.0 true) ∧
    (SpectralWeaver.mk SpectralWeaver.defaultBands
        (List.replicate NUM_BANDS Biquad.initB) 44100.0 true).processBlock [1, 2]
      = ([1, 2], SpectralWeaver.mk SpectralWeaver.defaultBands
        (List.replicate NUM_BANDS Biquad.initB) 44100.0 true) :=
  bypass_identity _ 3 [1, 2] rfl

/-! ### C5: out-of-range band indices -/

/-- C5: for any band index outside `[0, NUM_BANDS)`, every mutator returns
the engine completely unchanged, and `getBand` returns the
default-constructed descriptor (Bell, 1000 Hz, Q 0.707, 0 dB, disabled)
rather than signaling an error. -/
theorem out_of_range_noop (e : SpectralWeaver) (i : ℤ) (t : FilterType)
    (fr q g : ℝ) (en : Bool) (h : i < 0 ∨ (NUM_BANDS : ℤ) ≤ i) :
    e.setBand i t fr q g = e ∧
    e.setBandFrequency i fr = e ∧
    e.setBandQ i q = e ∧
    e.setBandGain i g = e ∧
    e.setBandType i t = e ∧
    e.setBandEnabled i en = e ∧
    e.getBand i = EQBand.defaultBand ∧
    EQBand.defaultBand = ⟨FilterType.Bell, 1000.0, 0.707, 0.0, false⟩ := by
  refine ⟨?_, ?_, ?_, ?_, ?_, ?_, ?_, rfl⟩
  · unfold SpectralWeaver.setBand; rw [if_pos h]
  · unfold SpectralWeaver.setBandFrequency; rw [if_pos h]
  · unfold SpectralWeaver.setBandQ; rw [if_pos h]
  · unfold SpectralWeaver.setBandGain; rw [if_pos h]
  · unfold SpectralWeaver.setBandType; rw [if_pos h]
  · unfold SpectralWeaver.setBandEnabled; rw [if_pos h]
  · unfold SpectralWeaver.getBand; rw [if_pos h]

/-- Witness for C5 at the concrete out-of-range indices 7 and -1. -/
theorem out_of_range_noop_witness :
    ((SpectralWeaver.mk SpectralWeaver.defaultBands
        (List.replicate NUM_BANDS Biquad.initB) 44100.0 false).setBandQ 7 2.0
      = SpectralWeaver.mk SpectralWeaver.defaultBands
        (List.replicate NUM_BANDS Biquad.initB) 44100.0 false) ∧
    ((SpectralWeaver.mk SpectralWeaver.defaultBands
        (List.replicate NUM_BANDS Biquad.initB) 44100.0 false).getBand (-1)
      = EQBand.defaultBand) :=
  ⟨(out_of_range_noop _ 7 FilterType.Bell 1000.0 2.0 0.0 false
      (Or.inr (by decide))).2.2.1,
   (out_of_range_noop _ (-1) FilterType.Bell 1000.0 2.0 0.0 false
      (Or.inl (by decide))).2.2.2.2.2.2.1⟩

/-! ### C8: reset zeroes delay state and nothing else -/

/-- C8: `Biquad::reset` zeroes both delay registers, leaves the stored
coefficients unchanged and is idempotent; `SpectralWeaver::reset` zeroes
the delay registers of every band's filter while leaving the band
descriptors, all coefficient sets, the sample rate and the bypass flag
unchanged. -/
theorem reset_zeroes_delay :
    (∀ f : Biquad,
      f.reset.z1 = 0 ∧ f.reset.z2 = 0 ∧
      f.reset.coeffs = f.coeffs ∧ f.reset.reset = f.reset) ∧
    (∀ e : SpectralWeaver,
      e.reset.bands = e.bands ∧
      e.reset.sampleRate = e.sampleRate ∧
      e.reset.bypass = e.bypass ∧
      e.reset.filters.length = e.filters.length ∧
      ∀ i : ℕ,
        (e.reset.filters.getD i Biquad.initB).z1 = 0 ∧
        (e.reset.filters.getD i Biquad.initB).z2 = 0 ∧
        (e.reset.filters.getD i Biquad.initB).coeffs
          = (e.filters.getD i Biquad.initB).coeffs) := by
  refine ⟨fun f => ⟨rfl, rfl, rfl, rfl⟩, fun e => ⟨rfl, rfl, rfl, ?_, fun i => ?_⟩⟩
  · exact List.length_map e.filters Biquad.reset
  · have h : e.reset.filters.getD i Biquad.initB
        = Biquad.reset (e.filters.getD i Biquad.initB) := getD_map_reset e.filters i
    rw [h]
    exact ⟨rfl, rfl, rfl⟩

/-! ### C10: all bands disabled is a pass-through -/

lemma cascadeSample_all_disabled :
    ∀ (bs : List EQBand) (fl : List Biquad) (x : ℝ),
      (∀ b ∈ bs, b.enabled = false) → cascadeSample bs fl x = (x, fl) := by
  intro bs
  induction bs with
  | nil => intro fl x _; cases fl <;> rfl
  | cons b bs ih =>
    intro fl x h
    cases fl with
    | nil => rfl
    | cons f fl' =>
      have hb : b.enabled = false := h b (List.mem_cons_self b bs)
      have hrest : ∀ b' ∈ bs, b'.enabled = false :=
        fun b' hb' => h b' (List.mem_cons_of_mem b hb')
      simp only [cascadeSample, hb, Bool.false_eq_true, if_false, ih fl' x hrest]

lemma cascadeBlock_all_disabled :
    ∀ (bs : List EQBand) (fl : List Biquad) (xs : List ℝ),
      (∀ b ∈ bs, b.enabled = false) → cascadeBlock bs fl xs = (xs, fl) := by
  intro bs
  induction bs with
  | nil => intro fl xs _; cases fl <;> rfl
  | cons b bs ih =>
    intro fl xs h
    cases fl with
    | nil => rfl
    | cons f fl' =>
      have hb : b.enabled = false := h b (List.mem_cons_self b bs)
      have hrest : ∀ b' ∈ bs, b'.enabled = false :=
        fun b' hb' => h b' (List.mem_cons_of_mem b hb')
      simp only [cascadeBlock, hb, Bool.false_eq_true, if_false, ih fl' xs hrest]

lemma updateFilter_bands (e : SpectralWeaver) (i : ℤ) :
    (e.updateFilter i).bands = e.bands := by
  unfold SpectralWeaver.updateFilter
  split <;> rfl

lemma foldl_updateFilter_bands (l : List ℕ) :
    ∀ e : SpectralWeaver,
      (l.foldl (fun a (k : ℕ) => a.updateFilter (k : ℤ)) e).bands = e.bands := by
  induction l with
  | nil => intro e; rfl
  | cons k l ih =>
    intro e
    rw [List.foldl_cons, ih, updateFilter_bands]

lemma init_bands : SpectralWeaver.init.bands = SpectralWeaver.defaultBands := by
  unfold SpectralWeaver.init SpectralWeaver.updateAllFilters
  rw [foldl_updateFilter_bands]

/-- C10: with bypass off but every band disabled (as in the freshly
constructed engine, whose seven default bands are all disabled),
`processSample` returns its input unchanged and `processBlock` copies its
input verbatim, with no change to any filter's delay state. -/
theorem all_disabled_identity :
    (∀ (e : SpectralWeaver) (x : ℝ) (xs : List ℝ),
      e.bypass = false → (∀ b ∈ e.bands, b.enabled = false) →
      e.processSample x = (x, e) ∧ e.processBlock xs = (xs, e)) ∧
    (∀ b ∈ SpectralWeaver.init.bands, b.enabled = false) := by
  constructor
  · intro e x xs hb hdis
    constructor
    · unfold SpectralWeaver.processSample
      rw [if_neg (by rw [hb]; exact Bool.false_ne_true),
        cascadeSample_all_disabled e.bands e.filters x hdis]
    · unfold SpectralWeaver.processBlock
      rw [if_neg (by rw [hb]; exact Bool.false_ne_true),
        cascadeBlock_all_disabled e.bands e.filters xs hdis]
  · rw [init_bands]
    intro b hb
    fin_cases hb <;> rfl

/-- Witness for C10 at a concrete engine with bypass off and every band
disabled. -/
theorem all_disabled_identity_witness :
    (SpectralWeaver.mk SpectralWeaver.defaultBands
        (List.replicate NUM_BANDS Biquad.initB) 44100.0 false).processSample 5
      = (5, SpectralWeaver.mk SpectralWeaver.defaultBands
        (List.replicate NUM_BANDS Biquad.initB) 44100.0 false) ∧
    (SpectralWeaver.mk SpectralWeaver.defaultBands
        (List.replicate NUM_BANDS Biquad.initB) 44100.0 false).processBlock [1, 2]
      = ([1, 2], SpectralWeaver.mk SpectralWeaver.defaultBands
        (List.replicate NUM_BANDS Biquad.initB) 44100.0 false) :=
  all_disabled_identity.1 _ 5 [1, 2] rfl
    (by intro b hb; fin_cases hb <;> rfl)

/-! ### C3: per-band block cascading equals per-sample cascading -/

lemma cascadeBlock_nil_input :
    ∀ (bs : List EQBand) (fl : List Biquad), cascadeBlock bs fl [] = ([], fl) := by
  intro bs
  induction bs with
  | nil => intro fl; cases fl <;> rfl
  | cons b bs ih =>
    intro fl
    cases fl with
    | nil => rfl
    | cons f fl' =>
      by_cases hb : b.enabled = true
      · simp only [cascadeBlock, hb, if_true, Biquad.processList, ih fl']
      · rw [Bool.not_eq_true] at hb
        simp only [cascadeBlock, hb, Bool.false_eq_true, if_false, ih fl']

lemma cascadeBlock_cons_input :
    ∀ (bs : List EQBand) (fl : List Biquad) (x : ℝ) (xs : List ℝ),
      cascadeBlock bs fl (x :: xs)
        = ((cascadeSample bs fl x).1
             :: (cascadeBlock bs (cascadeSample bs fl x).2 xs).1,
           (cascadeBlock bs (cascadeSample bs fl x).2 xs).2) := by
  intro bs
  induction bs with
  | nil => intro fl x xs; cases fl <;> rfl
  | cons b bs ih =>
    intro fl x xs
    cases fl with
    | nil => rfl
    | cons f fl' =>
      by_cases hb : b.enabled = true
      · simp only [cascadeBlock, cascadeSample, hb, if_true, Biquad.processList]
        rw [ih fl' ((f.process x).1) ((f.process x).2.processList xs).1]
      · rw [Bool.not_eq_true] at hb
        simp only [cascadeBlock, cascadeSample, hb, Bool.false_eq_true, if_false]
        rw [ih fl' x xs]

/-- C3: with bypass off, `processBlock` over any input buffer produces
exactly the output sequence and final engine state (in particular every
band filter's final delay state) of calling `processSample` on each input
sample in order: per-band whole-block cascading equals per-sample all-band
cascading. -/
theorem processBlock_eq_processSample_loop (e : SpectralWeaver) (xs : List ℝ)
    (h : e.bypass = false) :
    e.processSampleList xs = e.processBlock xs := by
  induction xs generalizing e with
  | nil =>
    have hnb : e.bypass ≠ true := by rw [h]; exact Bool.false_ne_true
    simp only [SpectralWeaver.processSampleList, SpectralWeaver.processBlock,
      if_neg hnb, cascadeBlock_nil_input]
  | cons x xs ih =>
    have hnb : e.bypass ≠ true := by rw [h]; exact Bool.false_ne_true
    simp only [SpectralWeaver.processSampleList, SpectralWeaver.processSample,
      SpectralWeaver.processBlock, if_neg hnb]
    rw [ih { e with filters := (cascadeSample e.bands e.filters x).2 } h]
    simp only [SpectralWeaver.processBlock, if_neg hnb]
    rw [cascadeBlock_cons_input]

/-- Witness for C3 at a concrete non-bypassed engine and buffer. -/
theorem processBlock_eq_processSample_loop_witness :
    (SpectralWeaver.mk SpectralWeaver.defaultBands
        (List.replicate NUM_BANDS Biquad.initB) 44100.0 false).processSampleList [1, 2, 3]
      = (SpectralWeaver.mk SpectralWeaver.defaultBands
        (List.replicate NUM_BANDS Biquad.initB) 44100.0 false).processBlock [1, 2, 3] :=
  processBlock_eq_processSample_loop _ [1, 2, 3] rfl

/-! ### C7: HighPass/LowPass/AllPass/Notch ignore gain -/

lemma designCoeffs_gain_free (t : FilterType)
    (h : t = FilterType.HighPass ∨ t = FilterType.LowPass ∨
         t = FilterType.AllPass ∨ t = FilterType.Notch)
    (fs fr q g1 g2 : ℝ) :
    designCoeffs t fs fr q g1 = designCoeffs t fs fr q g2 := by
  rcases h with rfl | rfl | rfl | rfl <;> rfl

lemma getD_set_general {α : Type} (l : List α) (n : ℕ) (a d : α) :
    (l.set n a).getD n d = if n < l.length then a else d := by
  by_cases h : n < l.length
  · rw [if_pos h]
    exact getD_set_self l n a d h
  · rw [if_neg h, List.set_eq_of_length_le (by omega)]
    exact List.getD_eq_default l d (by omega)

/-- C7: for a band whose filter type is HighPass, LowPass, AllPass or
Notch, the derived biquad coefficients do not depend on the band's `gainDB`
value: the dispatch in `updateFilter` calls the gain-free designers, so two
`setBandGain` calls that differ only in the gain value write identical
filters. -/
theorem passband_gain_independent :
    (∀ (t : FilterType) (fs fr q g1 g2 : ℝ),
      (t = FilterType.HighPass ∨ t = FilterType.LowPass ∨
       t = FilterType.AllPass ∨ t = FilterType.Notch) →
      designCoeffs t fs fr q g1 = designCoeffs t fs fr q g2) ∧
    (∀ (e : SpectralWeaver) (i : ℤ) (g1 g2 : ℝ),
      ((e.getBand i).type = FilterType.HighPass ∨
       (e.getBand i).type = FilterType.LowPass ∨
       (e.getBand i).type = FilterType.AllPass ∨
       (e.getBand i).type = FilterType.Notch) →
      (e.setBandGain i g1).filters = (e.setBandGain i g2).filters) := by
  constructor
  · intro t fs fr q g1 g2 h
    exact designCoeffs_gain_free t h fs fr q g1 g2
  · intro e i g1 g2 h
    by_cases hg : i < 0 ∨ (NUM_BANDS : ℤ) ≤ i
    · unfold SpectralWeaver.setBandGain
      rw [if_pos hg, if_pos hg]
    · unfold SpectralWeaver.getBand at h
      rw [if_neg hg] at h
      unfold SpectralWeaver.setBandGain SpectralWeaver.updateFilter
      rw [if_neg hg, if_neg hg, if_neg hg, if_neg hg]
      simp only [getD_set_general]
      by_cases hlen : i.toNat < e.bands.length
      · rw [if_pos hlen, if_pos hlen]
        have hband : ∀ g : ℝ,
            ({ e.bands.getD i.toNat EQBand.defaultBand with gainDB := g } : EQBand).type
              = (e.bands.getD i.toNat EQBand.defaultBand).type := fun _ => rfl
        rw [designCoeffs_gain_free _ h _ _ _ g1 g2]
      · rw [if_neg hlen, if_neg hlen]

/-- Witness for C7: band 0 of the default band set is a HighPass band. -/
theorem passband_gain_independent_witness :
    designCoeffs FilterType.Notch 44100.0 1000.0 2.0 6.0
      = designCoeffs FilterType.Notch 44100.0 1000.0 2.0 (-6.0) ∧
    ((SpectralWeaver.mk SpectralWeaver.defaultBands
        (List.replicate NUM_BANDS Biquad.initB) 44100.0 false).setBandGain 0 6.0).filters
      = ((SpectralWeaver.mk SpectralWeaver.defaultBands
        (List.replicate NUM_BANDS Biquad.initB) 44100.0 false).setBandGain 0 (-6.0)).filters :=
  ⟨passband_gain_independent.1 FilterType.Notch 44100.0 1000.0 2.0 6.0 (-6.0)
      (Or.inr (Or.inr (Or.inr rfl))),
   passband_gain_independent.2 _ 0 6.0 (-6.0) (Or.inl rfl)⟩

/-! ### C6: parameter clamping and the angular-frequency bound -/

lemma stdClamp_mem {v lo hi : ℝ} (h : lo ≤ hi) :
    lo ≤ stdClamp v lo hi ∧ stdClamp v lo hi ≤ hi := by
  unfold stdClamp
  split_ifs with h1 h2 <;> constructor <;> linarith

lemma stdClamp_of_mem {c lo hi : ℝ} (h1 : lo ≤ c) (h2 : c ≤ hi) :
    stdClamp c lo hi = c := by
  unfold stdClamp
  rw [if_neg (not_lt.mpr h1), if_neg (not_lt.mpr h2)]

lemma clampQ_idem (q : ℝ) :
    FilterDesign.clampQ (FilterDesign.clampQ q) = FilterDesign.clampQ q := by
  have h : FilterDesign.MIN_Q ≤ FilterDesign.MAX_Q := by
    unfold FilterDesign.MIN_Q FilterDesign.MAX_Q; norm_num
  exact stdClamp_of_mem (stdClamp_mem h).1 (stdClamp_mem h).2

lemma clampFreq_idem {fs : ℝ} (h : (1 : ℝ) ≤ fs * 0.49) (fr : ℝ) :
    FilterDesign.clampFreq fs (FilterDesign.clampFreq fs fr)
      = FilterDesign.clampFreq fs fr :=
  stdClamp_of_mem (stdClamp_mem h).1 (stdClamp_mem h).2

/-- C6 (amended): for every sample rate `fs` whose clamp interval is
non-degenerate (`1 ≤ 0.49·fs`; in particular `fs > 0`), every design
function's shared prelude clamps Q into `[MIN_Q, MAX_Q] = [0.1, 18]` and
the frequency into `[1, 0.49·fs]`, the resulting angular frequency
`ω = 2π·f/fs` lies strictly within `(0, π)`, and each of the seven
coefficient designers factors through these clamped parameters. -/
theorem design_clamp_bounds (fs fr q g : ℝ) (hfs : (1 : ℝ) ≤ fs * 0.49) :
    (FilterDesign.MIN_Q ≤ FilterDesign.clampQ q ∧
     FilterDesign.clampQ q ≤ FilterDesign.MAX_Q) ∧
    ((1 : ℝ) ≤ FilterDesign.clampFreq fs fr ∧
     FilterDesign.clampFreq fs fr ≤ fs * 0.49) ∧
    (0 < FilterDesign.angularFreq fs (FilterDesign.clampFreq fs fr) ∧
     FilterDesign.angularFreq fs (FilterDesign.clampFreq fs fr) < Real.pi) ∧
    FilterDesign.bellCoeffs fs fr q g
      = FilterDesign.bellCoeffs fs (FilterDesign.clampFreq fs fr) (FilterDesign.clampQ q) g ∧
    FilterDesign.lowShelfCoeffs fs fr q g
      = FilterDesign.lowShelfCoeffs fs (FilterDesign.clampFreq fs fr) (FilterDesign.clampQ q) g ∧
    FilterDesign.highShelfCoeffs fs fr q g
      = FilterDesign.highShelfCoeffs fs (FilterDesign.clampFreq fs fr) (FilterDesign.clampQ q) g ∧
    FilterDesign.highPassCoeffs fs fr q
      = FilterDesign.highPassCoeffs fs (FilterDesign.clampFreq fs fr) (FilterDesign.clampQ q) ∧
    FilterDesign.lowPassCoeffs fs fr q
      = FilterDesign.lowPassCoeffs fs (FilterDesign.clampFreq fs fr) (FilterDesign.clampQ q) ∧
    FilterDesign.allPassCoeffs fs fr q
      = FilterDesign.allPassCoeffs fs (FilterDesign.clampFreq fs fr) (FilterDesign.clampQ q) ∧
    FilterDesign.notchCoeffs fs fr q
      = FilterDesign.notchCoeffs fs (FilterDesign.clampFreq fs fr) (FilterDesign.clampQ q) := by
  have hQle : FilterDesign.MIN_Q ≤ FilterDesign.MAX_Q := by
    unfold FilterDesign.MIN_Q FilterDesign.MAX_Q; norm_num
  have hfs0 : 0 < fs := by nlinarith
  have hfc := stdClamp_mem (v := fr) hfs
  have hQ := clampQ_idem q
  have hF := clampFreq_idem hfs fr
  refine ⟨stdClamp_mem hQle, hfc, ⟨?_, ?_⟩, ?_, ?_, ?_, ?_, ?_, ?_, ?_⟩
  · unfold FilterDesign.angularFreq
    apply div_pos ?_ hfs0
    have h1 : (1 : ℝ) ≤ FilterDesign.clampFreq fs fr := hfc.1
    nlinarith [Real.pi_pos]
  · unfold FilterDesign.angularFreq
    rw [div_lt_iff₀ hfs0]
    have h2 : FilterDesign.clampFreq fs fr ≤ fs * 0.49 := hfc.2
    nlinarith [Real.pi_pos, mul_pos Real.pi_pos hfs0,
      mul_nonneg (le_of_lt Real.pi_pos) (sub_nonneg.mpr h2)]
  · simp only [FilterDesign.bellCoeffs, hQ, hF]
  · simp only [FilterDesign.lowShelfCoeffs, hQ, hF]
  · simp only [FilterDesign.highShelfCoeffs, hQ, hF]
  · simp only [FilterDesign.highPassCoeffs, hQ, hF]
  · simp only [FilterDesign.lowPassCoeffs, hQ, hF]
  · simp only [FilterDesign.allPassCoeffs, hQ, hF]
  · simp only [FilterDesign.notchCoeffs, hQ, hF]

/-- Witness for C6 at the concrete sample rate 44100 Hz. -/
theorem design_clamp_bounds_witness :
    (1 : ℝ) ≤ 44100.0 * 0.49 ∧
    ((1 : ℝ) ≤ FilterDesign.clampFreq 44100.0 1000.0 ∧
     FilterDesign.clampFreq 44100.0 1000.0 ≤ 44100.0 * 0.49) ∧
    (0 < FilterDesign.angularFreq 44100.0 (FilterDesign.clampFreq 44100.0 1000.0) ∧
     FilterDesign.angularFreq 44100.0 (FilterDesign.clampFreq 44100.0 1000.0) < Real.pi) :=
  ⟨by norm_num,
   (design_clamp_bounds 44100.0 1000.0 0.707 0.0 (by norm_num)).2.1,
   (design_clamp_bounds 44100.0 1000.0 0.707 0.0 (by norm_num)).2.2.1⟩

/-- Counterexample to C6 as stated: at the positive sample rate `fs = 1`
the clamp interval `[1, 0.49·fs]` is degenerate (`std::clamp`'s
precondition `lo ≤ hi` is violated), the clamped frequency `1` does not lie
in `[1, 0.49·fs]`, and the angular frequency is `2π`, not less than `π`. -/
theorem design_clamp_counterexample :
    (0 : ℝ) < 1 ∧
    FilterDesign.clampFreq 1 (1 / 2) = 1 ∧
    ¬ (FilterDesign.clampFreq 1 (1 / 2) ≤ 1 * 0.49) ∧
    ¬ (FilterDesign.angularFreq 1 (FilterDesign.clampFreq 1 (1 / 2)) < Real.pi) := by
  have hc : FilterDesign.clampFreq 1 (1 / 2) = 1 := by
    unfold FilterDesign.clampFreq stdClamp
    rw [if_pos (by norm_num)]
  refine ⟨by norm_num, hc, ?_, ?_⟩
  · rw [hc]; norm_num
  · rw [hc]
    unfold FilterDesign.angularFreq
    rw [not_lt]
    have hpi := Real.pi_pos
    nlinarith

/-! ### C2: the coefficient-consistency invariant -/

lemma updateFilter_sampleRate (e : SpectralWeaver) (i : ℤ) :
    (e.updateFilter i).sampleRate = e.sampleRate := by
  unfold SpectralWeaver.updateFilter
  split <;> rfl

lemma updateFilter_bypass (e : SpectralWeaver) (i : ℤ) :
    (e.updateFilter i).bypass = e.bypass := by
  unfold SpectralWeaver.updateFilter
  split <;> rfl

lemma updateFilter_filters_length (e : SpectralWeaver) (i : ℤ) :
    (e.updateFilter i).filters.length = e.filters.length := by
  unfold SpectralWeaver.updateFilter
  split
  · rfl
  · exact List.length_set e.filters _ _

lemma coeffs_applyCoeffs (f : Biquad) (c : BiquadCoefficients) :
    (f.applyCoeffs c).coeffs = c := rfl

lemma updateFilter_consistAt_self (e : SpectralWeaver) (i : ℕ) (hi : i < NUM_BANDS)
    (hlen : e.filters.length = NUM_BANDS) :
    ConsistAt (e.updateFilter (i : ℤ)) i := by
  have hi7 : i < 7 := by unfold NUM_BANDS at hi; exact hi
  have hguard : ¬ (((i : ℕ) : ℤ) < 0 ∨ (NUM_BANDS : ℤ) ≤ (i : ℤ)) := by
    unfold NUM_BANDS
    push_neg
    omega
  unfold SpectralWeaver.updateFilter
  rw [if_neg hguard]
  unfold ConsistAt bandCoeffs
  simp only [Int.toNat_natCast]
  rw [getD_set_self _ _ _ _ (by rw [hlen]; exact hi)]
  rfl

lemma updateFilter_consistAt_ne (e : SpectralWeaver) (k : ℤ) (j : ℕ)
    (hne : k ≠ (j : ℤ)) (h : ConsistAt e j) : ConsistAt (e.updateFilter k) j := by
  unfold SpectralWeaver.updateFilter
  split
  · exact h
  · next hg =>
    push_neg at hg
    have htn : k.toNat ≠ j := by omega
    unfold ConsistAt at h ⊢
    simp only [getD_set_ne _ _ _ _ _ htn]
    exact h

lemma consistAt_foldl_range (l : List ℕ) :
    ∀ (e : SpectralWeaver) (j : ℕ), j < NUM_BANDS → e.filters.length = NUM_BANDS →
      (j ∈ l ∨ ConsistAt e j) →
      ConsistAt (l.foldl (fun a (k : ℕ) => a.updateFilter (k : ℤ)) e) j := by
  induction l with
  | nil =>
    rintro e j _ _ (h | h)
    · simp at h
    · exact h
  | cons k l ih =>
    rintro e j hj hlen hor
    rw [List.foldl_cons]
    have hlen' : (e.updateFilter (k : ℤ)).filters.length = NUM_BANDS := by
      rw [updateFilter_filters_length]; exact hlen
    by_cases hkj : k = j
    · subst hkj
      exact ih _ k hj hlen' (Or.inr (updateFilter_consistAt_self e k hj hlen))
    · rcases hor with hmem | hcons
      · rcases List.mem_cons.mp hmem with hjk | hjl
        · exact absurd hjk.symm hkj
        · exact ih _ j hj hlen' (Or.inl hjl)
      · refine ih _ j hj hlen' (Or.inr ?_)
        exact updateFilter_consistAt_ne e (k : ℤ) j (by omega) hcons

lemma foldl_updateFilter_sampleRate (l : List ℕ) :
    ∀ e : SpectralWeaver,
      (l.foldl (fun a (k : ℕ) => a.updateFilter (k : ℤ)) e).sampleRate = e.sampleRate := by
  induction l with
  | nil => intro e; rfl
  | cons k l ih =>
    intro e
    rw [List.foldl_cons, ih, updateFilter_sampleRate]

lemma foldl_updateFilter_filters_length (l : List ℕ) :
    ∀ e : SpectralWeaver,
      (l.foldl (fun a (k : ℕ) => a.updateFilter (k : ℤ)) e).filters.length
        = e.filters.length := by
  induction l with
  | nil => intro e; rfl
  | cons k l ih =>
    intro e
    rw [List.foldl_cons, ih, updateFilter_filters_length]

lemma consistent_updateAllFilters (e : SpectralWeaver)
    (hb : e.bands.length = NUM_BANDS) (hf : e.filters.length = NUM_BANDS) :
    Consistent e.updateAllFilters := by
  unfold SpectralWeaver.updateAllFilters Consistent
  refine ⟨?_, ?_, ?_⟩
  · rw [foldl_updateFilter_bands]; exact hb
  · rw [foldl_updateFilter_filters_length]; exact hf
  · intro j hj
    exact consistAt_foldl_range _ e j hj hf (Or.inl (List.mem_range.mpr hj))

lemma consistent_updateFilter_after_bandSet (e : SpectralWeaver) (i : ℤ) (nb : EQBand)
    (h : Consistent e) (hg : ¬ (i < 0 ∨ (NUM_BANDS : ℤ) ≤ i)) :
    Consistent (SpectralWeaver.updateFilter
      { e with bands := e.bands.set i.toNat nb } i) := by
  obtain ⟨hbl, hfl, hc⟩ := h
  push_neg at hg
  have hi7 : i.toNat < NUM_BANDS := by unfold NUM_BANDS at *; omega
  have hieq : i = ((i.toNat : ℕ) : ℤ) := by omega
  set e' : SpectralWeaver := { e with bands := e.bands.set i.toNat nb } with he'
  have hbl' : e'.bands.length = NUM_BANDS := by
    rw [he']
    simpa only [List.length_set] using hbl
  have hfl' : e'.filters.length = NUM_BANDS := hfl
  refine ⟨?_, ?_, ?_⟩
  · rw [updateFilter_bands]; exact hbl'
  · rw [updateFilter_filters_length]; exact hfl'
  · intro j hj
    by_cases hji : j = i.toNat
    · subst hji
      rw [hieq]
      exact updateFilter_consistAt_self e' i.toNat hj hfl'
    · refine updateFilter_consistAt_ne e' i j (by omega) ?_
      unfold ConsistAt at hc ⊢
      rw [he']
      simp only [getD_set_ne _ _ _ _ _ (fun hh => hji hh.symm)]
      exact hc j hj

lemma consistent_setBandEnabled (e : SpectralWeaver) (i : ℤ) (en : Bool)
    (h : Consistent e) : Consistent (e.setBandEnabled i en) := by
  obtain ⟨hbl, hfl, hc⟩ := h
  unfold SpectralWeaver.setBandEnabled
  split
  · exact ⟨hbl, hfl, hc⟩
  · next hg =>
    push_neg at hg
    refine ⟨by simpa only [List.length_set] using hbl, hfl, ?_⟩
    intro j hj
    unfold ConsistAt at hc ⊢
    by_cases hji : j = i.toNat
    · subst hji
      rw [getD_set_self _ _ _ _ (by rw [hbl]; unfold NUM_BANDS at *; omega)]
      exact hc i.toNat hj
    · rw [getD_set_ne _ _ _ _ _ (fun hh => hji hh.symm)]
      exact hc j hj

/-- C2: after construction and after every public engine operation, each
band's stored biquad coefficients equal exactly the coefficients the design
functions derive from that band's current type/frequency/Q/gain and the
current sample rate; `setSampleRate` with an unchanged rate is the identity
(it skips recomputation) and in particular preserves the invariant. -/
theorem engine_coeffs_consistent :
    Consistent SpectralWeaver.init ∧
    (∀ (e : SpectralWeaver) (fs : ℝ), Consistent e → Consistent (e.initWithRate fs)) ∧
    (∀ (e : SpectralWeaver) (fs : ℝ), Consistent e → Consistent (e.setSampleRate fs)) ∧
    (∀ (e : SpectralWeaver) (i : ℤ) (t : FilterType) (fr q g : ℝ),
      Consistent e → Consistent (e.setBand i t fr q g)) ∧
    (∀ (e : SpectralWeaver) (i : ℤ) (fr : ℝ),
      Consistent e → Consistent (e.setBandFrequency i fr)) ∧
    (∀ (e : SpectralWeaver) (i : ℤ) (q : ℝ),
      Consistent e → Consistent (e.setBandQ i q)) ∧
    (∀ (e : SpectralWeaver) (i : ℤ) (g : ℝ),
      Consistent e → Consistent (e.setBandGain i g)) ∧
    (∀ (e : SpectralWeaver) (i : ℤ) (t : FilterType),
      Consistent e → Consistent (e.setBandType i t)) ∧
    (∀ (e : SpectralWeaver) (i : ℤ) (en : Bool),
      Consistent e → Consistent (e.setBandEnabled i en)) ∧
    (∀ (e : SpectralWeaver) (b : Bool), Consistent e → Consistent (e.setBypass b)) ∧
    (∀ e : SpectralWeaver, Consistent e → Consistent e.reset) ∧
    (∀ (e : SpectralWeaver) (fs : ℝ), e.sampleRate = fs → e.setSampleRate fs = e) := by
  refine ⟨?_, ?_, ?_, ?_, ?_, ?_, ?_, ?_, ?_, ?_, ?_, ?_⟩
  · exact consistent_updateAllFilters _ rfl (List.length_replicate NUM_BANDS Biquad.initB)
  · intro e fs h
    exact consistent_updateAllFilters _ h.1 h.2.1
  · intro e fs h
    unfold SpectralWeaver.setSampleRate
    split
    · exact h
    · exact consistent_updateAllFilters _ h.1 h.2.1
  · intro e i t fr q g h
    unfold SpectralWeaver.setBand
    split
    · exact h
    · next hg => exact consistent_updateFilter_after_bandSet e i _ h hg
  · intro e i fr h
    unfold SpectralWeaver.setBandFrequency
    split
    · exact h
    · next hg => exact consistent_updateFilter_after_bandSet e i _ h hg
  · intro e i q h
    unfold SpectralWeaver.setBandQ
    split
    · exact h
    · next hg => exact consistent_updateFilter_after_bandSet e i _ h hg
  · intro e i g h
    unfold SpectralWeaver.setBandGain
    split
    · exact h
    · next hg => exact consistent_updateFilter_after_bandSet e i _ h hg
  · intro e i t h
    unfold SpectralWeaver.setBandType
    split
    · exact h
    · next hg => exact consistent_updateFilter_after_bandSet e i _ h hg
  · intro e i en h
    exact consistent_setBandEnabled e i en h
  · intro e b h
    exact h
  · intro e h
    obtain ⟨hbl, hfl, hc⟩ := h
    refine ⟨hbl, by simp only [SpectralWeaver.reset, List.length_map]; exact hfl, ?_⟩
    intro j hj
    unfold ConsistAt at hc ⊢
    show ((e.filters.map Biquad.reset).getD j Biquad.initB).coeffs = _
    rw [getD_map_reset]
    exact hc j hj
  · intro e fs h
    unfold SpectralWeaver.setSampleRate
    rw [if_pos h]

/-- Witness for C2: the freshly constructed engine is consistent, and so is
the engine after a concrete `setBandGain` call. -/
theorem engine_coeffs_consistent_witness :
    Consistent SpectralWeaver.init ∧
    Consistent (SpectralWeaver.init.setBandGain 2 6.0) :=
  ⟨engine_coeffs_consistent.1,
   engine_coeffs_consistent.2.2.2.2.2.2.1 SpectralWeaver.init 2 6.0
     engine_coeffs_consistent.1⟩

end Chronos
